import Mathlib

/-!
Verification of the session/assistant lifecycle, quota policy and
response-composition logic of the RAG chat front-end
(`streamlit_app.py`).  The Python functions are shallowly embedded as
executable Lean definitions; remote-service calls are modelled as an
explicit environment record whose fallible calls return `Except` /
`Option` values (an `Except.error` models a raised exception at the
call site, `Option` models the result of an inner try/except that has
already been caught).
-/

namespace RagApp

/-! ### Python string primitives -/

/-- Whitespace characters stripped by Python `str.strip()` (ASCII range). -/
def pyWS (c : Char) : Bool :=
  c == ' ' || c == '\t' || c == '\n' || c == '\r' || c == '\x0b' || c == '\x0c'

/-- ASCII lower-casing of one character, as Python `str.lower()` does on
ASCII input (code points 65–90 map to 97–122). -/
def pyLowerChar (c : Char) : Char :=
  if 65 ≤ c.toNat ∧ c.toNat ≤ 90 then Char.ofNat (c.toNat + 32) else c

/-- ASCII upper-casing of one character, as Python `str.upper()` does on
ASCII input (code points 97–122 map to 65–90). -/
def pyUpperChar (c : Char) : Char :=
  if 97 ≤ c.toNat ∧ c.toNat ≤ 122 then Char.ofNat (c.toNat - 32) else c

/-- Python `s.lower()` (ASCII fragment). -/
def pyLower (s : String) : String := String.mk (s.data.map pyLowerChar)

/-- Python `s.upper()` (ASCII fragment). -/
def pyUpper (s : String) : String := String.mk (s.data.map pyUpperChar)

/-- Strip leading and trailing Python whitespace from a character list. -/
def stripChars (l : List Char) : List Char :=
  ((l.dropWhile pyWS).reverse.dropWhile pyWS).reverse

/-- Python `s.strip()`. -/
def pyStrip (s : String) : String := String.mk (stripChars s.data)

/-- Python substring containment `needle in hay`. -/
def pySubstr (needle hay : String) : Bool := decide (needle.data <:+: hay.data)

/-- Python truthiness of an optional string: `None` and `""` are falsy. -/
def truthyS : Option String → Bool
  | none => false
  | some s => s ≠ ""

/-- Python `a or b` on two optional strings (the left value is kept when
truthy, otherwise the right value is returned as is). -/
def pyOrS (a b : Option String) : Option String := if truthyS a then a else b

/-! ### The link-intent heuristic (`_is_link_request`) -/

/-- Trigger-word tuple of `_is_link_request` in `streamlit_app.py`. -/
def linkTriggers : List String :=
  ["link", "links", "url", "urls", "source", "sources", "view source",
   "download", "where can i find", "where can i get"]

/-- Embedding of `_is_link_request(user_message)`:
lower-cases the stripped message, returns `False` on an empty result and
otherwise tests each trigger word for substring containment. -/
def _is_link_request (user_message : String) : Bool :=
  let msg := pyLower (pyStrip user_message)
  if msg = "" then false
  else linkTriggers.any (fun t => pySubstr t msg)

/-! ### Data model of the remote service -/

/-- Job status as reported by the remote run object (`run.status`).
The `other` constructor stands for any status string outside the eight
documented ones; all code-side comparisons go through `toStr`, so an
`other` value behaves exactly like its underlying string. -/
inductive RunStatus where
  | queued
  | in_progress
  | cancelling
  | completed
  | failed
  | cancelled
  | expired
  | requires_action
  | other (s : String)
deriving DecidableEq

/-- Status string of a run, as the Python code sees it. -/
def RunStatus.toStr : RunStatus → String
  | .queued => "queued"
  | .in_progress => "in_progress"
  | .cancelling => "cancelling"
  | .completed => "completed"
  | .failed => "failed"
  | .cancelled => "cancelled"
  | .expired => "expired"
  | .requires_action => "requires_action"
  | .other s => s

/-- Polling-loop guard: `run.status in ['queued', 'in_progress', 'cancelling']`. -/
def runActive (st : RunStatus) : Bool :=
  (["queued", "in_progress", "cancelling"] : List String).contains st.toStr

/-- Attribute bag of a file attached to a vector store; each field is the
value of the corresponding key, `none` when the key is absent or maps to
`None`. -/
structure Attrs where
  doc : Option String
  view_source_url : Option String
  source_url : Option String
deriving DecidableEq

/-- Citation marker carried by a text block.  `file_citation`/`file_path`
are `none` when the corresponding sub-object is `None`; their payload is
the (possibly absent) `file_id` attribute. -/
structure Ann where
  file_citation : Option (Option String)
  file_path : Option (Option String)
deriving DecidableEq

/-- Text payload of a content block: its string value and its ordered
citation markers. -/
structure TextBlock where
  value : String
  anns : List Ann
deriving DecidableEq

/-- Typed content block of a thread message; only `text` blocks are read. -/
inductive ContentBlock where
  | text (t : TextBlock)
  | other (ctype : String)
deriving DecidableEq

/-- One message of a thread (the service lists them newest-first). -/
structure Msg where
  role : String
  content : List ContentBlock
deriving DecidableEq

/-- Vector store descriptor as used by `fetch_vector_stores`. -/
structure VectorStore where
  id : String
  name : String
deriving DecidableEq

/-- Remote-service environment.  `Except.error e` models the call raising
an exception whose `str` is `e`.  The `Option`-valued resolvers model
calls whose exceptions the source catches right at the call site:
`none` is a raised exception, `some x` a normal return.  For
`retrieveFile`, the payload is the `filename` attribute (absent = `none`);
for `retrieveVsFile`, `some none` models a non-dict `attributes` value and
`some (some a)` a dict with the given keys; for `listVsFiles`, the payload
is the list of attached file references (each carrying an optional `id`). -/
structure QEnv where
  createMessage : Except String Unit
  createRun : Except String RunStatus
  retrieveRun : Nat → Except String RunStatus
  listMessages : Except String (List Msg)
  retrieveFile : String → Option (Option String)
  retrieveVsFile : String → String → Option (Option Attrs)
  listVsFiles : String → Option (List (Option String))
  listVectorStores : Except String (List VectorStore)
  assistantsCreate : Except String String
  threadsCreate : Except String String
  assistantsDelete : String → Except String Unit

/-! ### Collection directory and file/attribute resolver -/

/-- Embedding of `fetch_vector_stores`: on any retrieval error the
function surfaces the error for display and returns the empty list. -/
def fetch_vector_stores (env : QEnv) : List VectorStore :=
  match env.listVectorStores with
  | .ok l => l
  | .error _ => []

/-- Embedding of `fetch_vector_store_files`: returns the `data` list, or
the empty list when the remote call raises. -/
def fetch_vector_store_files (env : QEnv) (vsid : String) : List (Option String) :=
  match env.listVsFiles vsid with
  | some l => l
  | none => []

/-- Extension part of `os.path.splitext(filename)[1]`, then
`.lower().lstrip(".")`, exactly as `fetch_vector_store_filenames_and_types`
computes it: the extension starts at the last dot of the basename, except
when every character before that dot (within the basename) is itself a
dot. -/
def pyExtOf (filename : String) : String :=
  let revBase := filename.data.reverse.takeWhile (fun c => c != '/')
  let extPart : List Char :=
    match revBase.dropWhile (fun c => c != '.') with
    | [] => []
    | _ :: r₂ =>
      if r₂.any (fun c => c != '.') then
        '.' :: (revBase.takeWhile (fun c => c != '.')).reverse
      else []
  String.mk ((extPart.map pyLowerChar).dropWhile (fun c => c == '.'))

/-- Loop body of `fetch_vector_store_filenames_and_types`: walks the
attached-file references, skipping entries with a falsy id, entries whose
retrieval raises, and entries without a truthy filename; returns the
collected filenames and (non-empty) extensions in list order. -/
def collectNamesExts (env : QEnv) : List (Option String) → List String × List String
  | [] => ([], [])
  | vf :: rest =>
    match vf with
    | none => collectNamesExts env rest
    | some fid =>
      if fid = "" then collectNamesExts env rest
      else
        match env.retrieveFile fid with
        | none => collectNamesExts env rest
        | some fn? =>
          match fn? with
          | none => collectNamesExts env rest
          | some fn =>
            if fn = "" then collectNamesExts env rest
            else
              let rec' := collectNamesExts env rest
              let ext := pyExtOf fn
              (fn :: rec'.1, if ext = "" then rec'.2 else ext :: rec'.2)

/-- Boolean string order used to model Python `sorted` on strings. -/
def strLeB (a b : String) : Bool := !(decide (b < a))

/-- Embedding of `fetch_vector_store_filenames_and_types`: the sorted,
de-duplicated filename list together with the comma-separated, sorted,
de-duplicated, upper-cased extension summary (`none` when no extension
was resolvable). -/
def fetch_vector_store_filenames_and_types (env : QEnv) (vsid : String) :
    List String × Option String :=
  let collected := collectNamesExts env (fetch_vector_store_files env vsid)
  let summary : Option String :=
    if collected.2 = [] then none
    else some (String.intercalate ", " (((collected.2.map pyUpper).dedup).mergeSort strLeB))
  ((collected.1.dedup).mergeSort strLeB, summary)

/-! ### Response composer -/

/-- File id extracted from one citation marker: a direct file-citation
reference is preferred, a file-path reference is the fallback, and a
falsy id yields nothing. -/
def annFileId (a : Ann) : Option String :=
  let fid₁ : Option String :=
    match a.file_citation with
    | some v => v
    | none => none
  let fid₂ : Option String :=
    match a.file_path with
    | some w => if truthyS fid₁ then fid₁ else w
    | none => fid₁
  if truthyS fid₂ then fid₂ else none

/-- Concatenated text of all text-typed content blocks of a message. -/
def msgText (m : Msg) : String :=
  m.content.foldl
    (fun acc c =>
      match c with
      | .text t => acc ++ t.value
      | .other _ => acc) ""

/-- Set-insert for the collected citation file ids. -/
def addUniqueId (l : List String) (x : String) : List String :=
  if x ∈ l then l else l ++ [x]

/-- Unique cited file ids of a message, in first-occurrence order
(the Python code collects them into a set). -/
def msgCitedIds (m : Msg) : List String :=
  m.content.foldl
    (fun acc c =>
      match c with
      | .text t =>
        t.anns.foldl
          (fun acc₂ a =>
            match annFileId a with
            | some fid => addUniqueId acc₂ fid
            | none => acc₂) acc
      | .other _ => acc) []

/-- Inner `try: f = client.files.retrieve(fid); filename = getattr(f,
"filename", None); except: filename = None` of the resolution loops. -/
def retrievedFilename (env : QEnv) (fid : String) : Option String :=
  match env.retrieveFile fid with
  | none => none
  | some fn => fn

/-- Inner `doc_title` / `source_url` assignment of the Sources resolution
loop: only a bound (truthy) collection id with a retrievable vector-store
file carrying a dict attribute bag contributes; the URL prefers
`view_source_url` over `source_url`. -/
def retrievedTitleUrl (env : QEnv) (vsid : Option String) (fid : String) :
    Option String × Option String :=
  if truthyS vsid then
    match env.retrieveVsFile (vsid.getD "") fid with
    | some (some a) => (a.doc, pyOrS a.view_source_url a.source_url)
    | _ => (none, none)
  else (none, none)

/-- Resolution of one cited file id to a `(display name, optional URL)`
pair: the display name prefers the `doc` attribute over the raw filename,
the URL prefers `view_source_url` over `source_url`; a falsy display name
drops the id. -/
def resolveSource (env : QEnv) (vsid : Option String) (fid : String) :
    Option (String × Option String) :=
  let filename := retrievedFilename env fid
  let pair := retrievedTitleUrl env vsid fid
  match pyOrS pair.1 filename with
  | some n => if n = "" then none else some (n, pair.2)
  | none => none

/-- Lexicographic Boolean order on string pairs, modelling Python tuple
comparison in `sorted(..., key=lambda x: (x[0], x[1]))`. -/
def keyLe (a b : String × String) : Bool :=
  decide (a.1 < b.1) || (decide (a.1 = b.1) && strLeB a.2 b.2)

/-- Sort key of a Sources entry: `(name, url or "")`. -/
def srcKey (p : String × Option String) : String × String := (p.1, p.2.getD "")

/-- Order on Sources entries induced by `srcKey`. -/
def srcLe (p q : String × Option String) : Bool := keyLe (srcKey p) (srcKey q)

/-- Seen-set de-duplication loop shared by the Sources and Document-links
blocks: keeps the first entry for each key, in list order. -/
def dedupBy {α : Type} (key : α → String × String) :
    List α → List (String × String) → List α
  | [], _ => []
  | x :: xs, seen =>
    if key x ∈ seen then dedupBy key xs seen
    else x :: dedupBy key xs (key x :: seen)

/-- Resolved `(name, url?)` pairs of the cited file ids, in id order. -/
def sourcesFor (env : QEnv) (vsid : Option String) (fids : List String) :
    List (String × Option String) :=
  fids.filterMap (resolveSource env vsid)

/-- De-duplicated, sorted Sources entries. -/
def uniqueSources (env : QEnv) (vsid : Option String) (fids : List String) :
    List (String × Option String) :=
  dedupBy srcKey ((sourcesFor env vsid fids).mergeSort srcLe) []

/-- Rendering of one Sources entry: a `View source` link when a truthy
URL is present, plain text otherwise. -/
def renderSourceLine (p : String × Option String) : String :=
  if truthyS p.2 then "- [View source: " ++ p.1 ++ "](" ++ p.2.getD "" ++ ")"
  else "- " ++ p.1

/-- Full Sources block appended to the answer text. -/
def mkSourcesBlock (entries : List (String × Option String)) : String :=
  "\n\n**Sources:**\n" ++ String.intercalate "\n" (entries.map renderSourceLine)

/-- Resolution of one attached-file reference inside
`_build_knowledge_base_links_block`: needs a truthy id, a retrievable
vector-store file with a dict attribute bag, a truthy display name and a
truthy URL. -/
def resolveLink (env : QEnv) (vsid : String) (vf : Option String) :
    Option (String × String) :=
  match vf with
  | none => none
  | some fid =>
    if fid = "" then none
    else
      let filename := retrievedFilename env fid
      match env.retrieveVsFile vsid fid with
      | none => none
      | some none => none
      | some (some a) =>
        let dn := pyOrS a.doc filename
        let url := pyOrS a.view_source_url a.source_url
        if truthyS dn && truthyS url then some (dn.getD "", url.getD "") else none

/-- Resolvable `(name, url)` pairs of all files attached to a collection. -/
def linksFor (env : QEnv) (vsid : String) : List (String × String) :=
  (fetch_vector_store_files env vsid).filterMap (resolveLink env vsid)

/-- De-duplicated, sorted Document-links entries. -/
def uniqueLinks (env : QEnv) (vsid : String) : List (String × String) :=
  dedupBy (fun p => p) ((linksFor env vsid).mergeSort keyLe) []

/-- Embedding of `_build_knowledge_base_links_block`: empty string when no
attached document resolves, otherwise the rendered block. -/
def _build_knowledge_base_links_block (env : QEnv) (vsid : String) : String :=
  let links := linksFor env vsid
  if links = [] then ""
  else
    "\n\n**Document links:**\n" ++
      String.intercalate "\n"
        ((uniqueLinks env vsid).map
          (fun p => "- [View source: " ++ p.1 ++ "](" ++ p.2 ++ ")"))

/-- Completed-run branch of `get_assistant_response`: locate the newest
assistant message, concatenate its text, resolve and append the Sources
block, and optionally append the Document-links block. -/
def composeCompleted (env : QEnv) (vsid : Option String) (user_message : String)
    (msgs : List Msg) : String :=
  match msgs.find? (fun m => m.role == "assistant") with
  | none => "I couldn't generate a response. Please try again."
  | some latest =>
    let full_text := msgText latest
    let fids := msgCitedIds latest
    if full_text = "" then "I couldn't generate a response. Please try again."
    else
      let t₁ :=
        if sourcesFor env vsid fids = [] then full_text
        else full_text ++ mkSourcesBlock (uniqueSources env vsid fids)
      if truthyS vsid && _is_link_request user_message then
        let kb := _build_knowledge_base_links_block env (vsid.getD "")
        if kb = "" then t₁ else t₁ ++ kb
      else t₁

/-! ### Query engine -/

/-- Polling loop of `get_assistant_response`: while the status is active,
re-fetch the run (the `Nat` index counts retrievals); `ok none` means the
fuel ran out while the remote job was still active (the Python loop would
still be sleeping and polling). -/
def pollRun (retrieve : Nat → Except String RunStatus) :
    RunStatus → Nat → Nat → Except String (Option RunStatus)
  | st, k, fuel =>
    if runActive st then
      match fuel with
      | 0 => .ok none
      | fuel' + 1 =>
        match retrieve k with
        | .error e => .error e
        | .ok st' => pollRun retrieve st' (k + 1) fuel'
    else .ok (some st)

/-- Submission and polling phase: create the user message, start the run,
poll to a non-active status. -/
def runOutcome (env : QEnv) (fuel : Nat) : Except String (Option RunStatus) :=
  match env.createMessage with
  | .error e => .error e
  | .ok _ =>
    match env.createRun with
    | .error e => .error e
    | .ok st₀ => pollRun env.retrieveRun st₀ 0 fuel

/-- Body of `get_assistant_response` before its outer `try/except`:
classify the terminal status, composing the reply on `completed` and
mapping every other terminal status to its error string.  `ok none`
again means the poll loop has not terminated within `fuel`. -/
def get_assistant_responseE (env : QEnv) (fuel : Nat) (user_message : String)
    (vsid : Option String) : Except String (Option String) :=
  match runOutcome env fuel with
  | .error e => .error e
  | .ok none => .ok none
  | .ok (some st) =>
    if st.toStr = "completed" then
      match env.listMessages with
      | .error e => .error e
      | .ok msgs => .ok (some (composeCompleted env vsid user_message msgs))
    else if st.toStr = "failed" then
      .ok (some "Error: The assistant run failed. Please try again.")
    else if st.toStr = "cancelled" then
      .ok (some "Error: The assistant run was cancelled. Please try again.")
    else if st.toStr = "expired" then
      .ok (some "Error: The assistant run expired. Please try again.")
    else if st.toStr = "requires_action" then
      .ok (some "Error: The assistant requires additional action to continue.")
    else .ok (some ("Error: Run ended with status " ++ st.toStr))

/-- Embedding of `get_assistant_response`: the outer `try/except` turns
any raised exception into the `Error getting response:` string. -/
def get_assistant_response (env : QEnv) (fuel : Nat) (user_message : String)
    (vsid : Option String) : Option String :=
  match get_assistant_responseE env fuel user_message vsid with
  | .ok r => r
  | .error e => some ("Error getting response: " ++ e)

/-- Specification-side table of the non-completed terminal error strings,
stated separately from the embedding so the claim relates the two. -/
def nonCompletedMessage : RunStatus → String
  | .failed => "Error: The assistant run failed. Please try again."
  | .cancelled => "Error: The assistant run was cancelled. Please try again."
  | .expired => "Error: The assistant run expired. Please try again."
  | .requires_action => "Error: The assistant requires additional action to continue."
  | st => "Error: Run ended with status " ++ st.toStr

/-! ### Session manager (collection switch) -/

/-- One conversation turn stored in `st.session_state.messages`. -/
structure Turn where
  role : String
  content : String
deriving DecidableEq

/-- The mutable session state read and written by the chat flow. -/
structure AppState where
  user_role : Option String
  guest_id : Option String
  selected_vector_store : Option String
  assistant_id : Option String
  thread_id : Option String
  messages : List Turn
deriving DecidableEq

/-- Embedding of `create_assistant`: returns the new assistant id, or
`None` when the remote creation raises (the instruction-template text the
source builds is not observed by any claim and is omitted). -/
def create_assistant (env : QEnv) : Option String :=
  match env.assistantsCreate with
  | .ok a => some a
  | .error _ => none

/-- Embedding of `create_thread`: returns the new thread id, or `None`
when the remote creation raises. -/
def create_thread (env : QEnv) : Option String :=
  match env.threadsCreate with
  | .ok t => some t
  | .error _ => none

/-- Embedding of `reset_chat_session`: clears the turn list and installs a
freshly created thread id. -/
def reset_chat_session (env : QEnv) (s : AppState) : AppState :=
  { s with messages := [], thread_id := create_thread env }

/-- Embedding of the module-level collection-switch block: when the
selected store differs from the bound one, rebind the store id,
best-effort delete the old assistant (result discarded), create a new
assistant, and reset the chat session. -/
def collectionSwitchStep (env : QEnv) (s : AppState) (storeId : String) : AppState :=
  if s.selected_vector_store ≠ some storeId then
    let s₁ := { s with selected_vector_store := some storeId }
    let _deleted : Option (Except String Unit) :=
      if truthyS s₁.assistant_id then some (env.assistantsDelete (s₁.assistant_id.getD ""))
      else none
    reset_chat_session env { s₁ with assistant_id := create_assistant env }
  else s

/-! ### Access policy (guest quota) -/

/-- Process-wide guest quota map, keyed by (guest id, ISO date). -/
def GuestQuota : Type := String × String → Nat

/-- Fixed daily limit for guest queries. -/
def MAX_GUEST_QUERIES_PER_DAY : Nat := 25

/-- Observable outcome of one `handle_user_prompt` call. -/
inductive PromptOutcome where
  | guestIdMissing
  | quotaRefused
  | engineRunning
  | answered (resp : String)
deriving DecidableEq

/-- Embedding of `handle_user_prompt`: the guest branch refuses when the
guest id is falsy or the day's usage has reached the limit, otherwise
increments the counter; any allowed prompt is appended as a user turn and
the engine's reply (when it returns) as an assistant turn. -/
def handle_user_prompt (env : QEnv) (fuel : Nat) (today : String)
    (q : GuestQuota) (s : AppState) (prompt : String) :
    GuestQuota × AppState × PromptOutcome :=
  let proceed : GuestQuota → GuestQuota × AppState × PromptOutcome := fun q' =>
    let s₁ := { s with messages := s.messages ++ [Turn.mk "user" prompt] }
    match get_assistant_response env fuel prompt s.selected_vector_store with
    | none => (q', s₁, .engineRunning)
    | some resp =>
      (q', { s₁ with messages := s₁.messages ++ [Turn.mk "assistant" resp] },
       .answered resp)
  if s.user_role = some "guest" then
    match s.guest_id with
    | none => (q, s, .guestIdMissing)
    | some gid =>
      if gid = "" then (q, s, .guestIdMissing)
      else
        let key := (gid, today)
        let used := q key
        if MAX_GUEST_QUERIES_PER_DAY ≤ used then (q, s, .quotaRefused)
        else proceed (fun k => if k = key then used + 1 else q k)
  else proceed q

/-- Iterated prompt handling: the quota/state evolution after `n`
submissions of the same prompt. -/
def iterPrompts (env : QEnv) (fuel : Nat) (today : String) (prompt : String) :
    Nat → GuestQuota × AppState → GuestQuota × AppState
  | 0, qs => qs
  | n + 1, qs =>
    let step := handle_user_prompt env fuel today qs.1 qs.2 prompt
    iterPrompts env fuel today prompt n (step.1, step.2.1)

/-- Result of the `n`-th (1-indexed) submission of a prompt, starting from
`(q₀, s₀)`. -/
def nthPromptResult (env : QEnv) (fuel : Nat) (today : String) (prompt : String)
    (q₀ : GuestQuota) (s₀ : AppState) (n : Nat) :
    GuestQuota × AppState × PromptOutcome :=
  let before := iterPrompts env fuel today prompt (n - 1) (q₀, s₀)
  handle_user_prompt env fuel today before.1 before.2 prompt

/-! ### Well-formedness of the remote metadata -/

/-- No remote filename or attribute value is the empty string (Python
treats an empty-string value exactly like an absent one throughout the
resolution code, so this only rules out degenerate metadata). -/
def EnvNoEmpty (env : QEnv) : Prop :=
  (∀ fid, env.retrieveFile fid ≠ some (some "")) ∧
  (∀ v fid a, env.retrieveVsFile v fid = some (some a) →
    a.doc ≠ some "" ∧ a.view_source_url ≠ some "" ∧ a.source_url ≠ some "")

/-- True when the prompt was forwarded to the query engine (the guest
gate did not refuse it). -/
def PromptOutcome.forwarded : PromptOutcome → Bool
  | .guestIdMissing => false
  | .quotaRefused => false
  | .engineRunning => true
  | .answered _ => true

/-- Per-file view of the extension computation inside
`fetch_vector_store_filenames_and_types`: the extension contributed by
one attached-file reference, `none` when the entry is skipped. -/
def resolvedTypeOf (env : QEnv) (vf : Option String) : Option String :=
  match vf with
  | none => none
  | some fid =>
    if fid = "" then none
    else
      match env.retrieveFile fid with
      | none => none
      | some none => none
      | some (some fn) =>
        if fn = "" then none
        else if pyExtOf fn = "" then none else some (pyExtOf fn)

/-- True when a character list starts with a non-whitespace character
(used to state when stripping cannot cut into a substring occurrence). -/
def headNotWS : List Char → Bool
  | [] => false
  | c :: _ => !pyWS c

/-- Benign concrete environment used by the witness instances. -/
def baseEnv : QEnv where
  createMessage := .ok ()
  createRun := .ok .completed
  retrieveRun := fun _ => .ok .completed
  listMessages := .ok []
  retrieveFile := fun _ => none
  retrieveVsFile := fun _ _ => none
  listVsFiles := fun _ => none
  listVectorStores := .ok []
  assistantsCreate := .ok "asst_new"
  threadsCreate := .ok "thread_new"
  assistantsDelete := fun _ => .ok ()

/-- Concrete assistant message with one file citation, for the Sources
witness. -/
def msgC4 : Msg :=
  Msg.mk "assistant"
    [ContentBlock.text (TextBlock.mk "Answer." [Ann.mk (some (some "f1")) none])]

/-- Concrete environment resolving every file id to the `Statute`
attachment, for the Sources witness. -/
def envC4 : QEnv :=
  { baseEnv with
    listMessages := .ok [msgC4],
    retrieveFile := fun _ => some (some "statute.pdf"),
    retrieveVsFile := fun _ _ =>
      some (some (Attrs.mk (some "Statute") (some "https://x/statute.pdf") none)) }

/-- Concrete assistant message without citations, for the Document-links
witness. -/
def msgC5 : Msg :=
  Msg.mk "assistant" [ContentBlock.text (TextBlock.mk "Hello." [])]

/-- Concrete environment with two attached files resolving to the same
`Guide` link, for the Document-links witness. -/
def envC5 : QEnv :=
  { baseEnv with
    listVsFiles := fun _ => some [some "f1", some "f2"],
    retrieveFile := fun _ => some (some "doc.pdf"),
    retrieveVsFile := fun _ _ =>
      some (some (Attrs.mk (some "Guide") (some "https://x/guide.pdf") none)) }

/-- Concrete environment with two typed files and one file whose
retrieval raises, for the file-types witness. -/
def envC8 : QEnv :=
  { baseEnv with
    listVsFiles := fun _ => some [some "a", some "bad", some "b"],
    retrieveFile := fun fid =>
      if fid = "a" then some (some "x.pdf")
      else if fid = "b" then some (some "y.docx")
      else none }

/-! ## Helper lemmas -/

theorem toNat_ofNat_valid {n : Nat} (h : n.isValidChar) : (Char.ofNat n).toNat = n := by
  rw [Char.ofNat, dif_pos h]
  rfl

theorem pyWS_pyLowerChar (c : Char) : pyWS (pyLowerChar c) = pyWS c := by
  unfold pyLowerChar
  split
  · rename_i h
    have hval : (Char.ofNat (c.toNat + 32)).toNat = c.toNat + 32 :=
      toNat_ofNat_valid (Or.inl (by omega))
    have h2 : pyWS c = false := by
      simp only [pyWS, Bool.or_eq_false_iff, beq_eq_false_iff_ne, ne_eq]
      refine ⟨⟨⟨⟨⟨?_, ?_⟩, ?_⟩, ?_⟩, ?_⟩, ?_⟩ <;>
        (intro he; subst he; exact absurd h (by decide))
    have h1 : pyWS (Char.ofNat (c.toNat + 32)) = false := by
      simp only [pyWS, Bool.or_eq_false_iff, beq_eq_false_iff_ne, ne_eq]
      refine ⟨⟨⟨⟨⟨?_, ?_⟩, ?_⟩, ?_⟩, ?_⟩, ?_⟩ <;>
        (intro he; have h3 := congrArg Char.toNat he; rw [hval] at h3; simp at h3;
         try omega)
    rw [h1, h2]
  · rfl

theorem stripChars_map_lower (l : List Char) :
    stripChars (l.map pyLowerChar) = (stripChars l).map pyLowerChar := by
  have hp : (pyWS ∘ pyLowerChar) = pyWS := funext pyWS_pyLowerChar
  unfold stripChars
  rw [List.dropWhile_map, hp, ← List.map_reverse, List.dropWhile_map, hp,
    ← List.map_reverse]

theorem infix_reverse_of {t l : List Char} (h : t <:+: l) :
    t.reverse <:+: l.reverse := by
  obtain ⟨u, v, rfl⟩ := h
  exact ⟨v.reverse, u.reverse, by simp⟩

theorem infix_dropWhile_of {p : Char → Bool} {c : Char} {t l : List Char}
    (h : (c :: t) <:+: l) (hc : p c = false) : (c :: t) <:+: l.dropWhile p := by
  obtain ⟨u, v, rfl⟩ := h
  rw [List.append_assoc, List.dropWhile_append]
  split
  · rw [List.cons_append, List.dropWhile_cons, hc]
    exact ⟨[], v, by simp⟩
  · exact ⟨u.dropWhile p, v, by simp⟩

theorem infix_stripChars {t l : List Char} (h : t <:+: l)
    (h₁ : headNotWS t = true) (h₂ : headNotWS t.reverse = true) :
    t <:+: stripChars l := by
  match t, h₁ with
  | c :: t', h₁ =>
    have hc : pyWS c = false := by simpa [headNotWS] using h₁
    have s1 : (c :: t') <:+: l.dropWhile pyWS := infix_dropWhile_of h hc
    have s2 : (c :: t').reverse <:+: (l.dropWhile pyWS).reverse := infix_reverse_of s1
    cases he : (c :: t').reverse with
    | nil => exact absurd (congrArg List.length he) (by simp)
    | cons d t'' =>
      have hd : pyWS d = false := by
        rw [he] at h₂
        simpa [headNotWS] using h₂
      rw [he] at s2
      have s3 : (d :: t'') <:+: ((l.dropWhile pyWS).reverse).dropWhile pyWS :=
        infix_dropWhile_of s2 hd
      have s4 := infix_reverse_of s3
      rw [← he, List.reverse_reverse] at s4
      exact s4

theorem stripChars_isInfix (l : List Char) : stripChars l <:+: l := by
  obtain ⟨a, ha⟩ := List.dropWhile_suffix (l := l) pyWS
  obtain ⟨b, hb⟩ := List.dropWhile_suffix (l := (l.dropWhile pyWS).reverse) pyWS
  refine ⟨a, b.reverse, ?_⟩
  have hdw : l.dropWhile pyWS = stripChars l ++ b.reverse := by
    have := congrArg List.reverse hb
    simpa [stripChars] using this.symm
  rw [List.append_assoc, ← hdw, ha]

theorem link_request_aux {s t : String} (ht : t ∈ linkTriggers)
    (h₁ : headNotWS t.data = true) (h₂ : headNotWS t.data.reverse = true)
    (hsub : t.data <:+: (pyLower s).data) : _is_link_request s = true := by
  have hmsg : (pyLower (pyStrip s)).data = stripChars ((pyLower s).data) := by
    simp only [pyLower, pyStrip, ← stripChars_map_lower]
  have hstep : t.data <:+: (pyLower (pyStrip s)).data := by
    rw [hmsg]
    exact infix_stripChars hsub h₁ h₂
  have htne : t.data ≠ [] := by
    intro h0
    rw [h0] at h₁
    exact absurd h₁ (by decide)
  have hne : pyLower (pyStrip s) ≠ "" := by
    intro he
    rw [he] at hstep
    rcases hstep with ⟨u, v, huv⟩
    have hu : u ++ t.data ++ v = [] := by simpa using huv
    rcases List.append_eq_nil.mp hu with ⟨hu1, hv⟩
    rcases List.append_eq_nil.mp hu1 with ⟨_, ht0⟩
    exact htne ht0
  unfold _is_link_request
  rw [if_neg hne]
  exact List.any_eq_true.mpr ⟨t, ht, by simpa [pySubstr] using hstep⟩

/-! ## Claim C7 -/

/-- Claim C7: every input containing a trigger word of the fixed list as a
case-insensitive substring makes `_is_link_request` return true, and every
input containing none of them makes it return false. -/
theorem C7_link_intent_heuristic :
    (∀ s t, t ∈ linkTriggers → t.data <:+: (pyLower s).data →
      _is_link_request s = true)
    ∧ (∀ s, (∀ t ∈ linkTriggers, ¬ t.data <:+: (pyLower s).data) →
      _is_link_request s = false) := by
  constructor
  · intro s t ht hsub
    fin_cases ht <;>
      exact link_request_aux (by decide) (by decide) (by decide) hsub
  · intro s hnone
    show (if pyLower (pyStrip s) = "" then false
          else linkTriggers.any fun t => pySubstr t (pyLower (pyStrip s))) = false
    split
    · rfl
    · rename_i hne
      refine List.any_eq_false.mpr ?_
      intro t ht
      have hni : ¬ t.data <:+: (pyLower (pyStrip s)).data := by
        intro hinf
        have hmsg : (pyLower (pyStrip s)).data = stripChars ((pyLower s).data) := by
          simp only [pyLower, pyStrip, ← stripChars_map_lower]
        rw [hmsg] at hinf
        exact hnone t ht (hinf.trans (stripChars_isInfix _))
      simpa [pySubstr] using hni

/-- Witness for C7 at two concrete inputs: a trigger-containing question
is classified as a link request, an unrelated question is not. -/
theorem C7_witness :
    ("url" ∈ linkTriggers
      ∧ "url".data <:+: (pyLower "Where can I find the URL?").data
      ∧ (∀ t ∈ linkTriggers, ¬ t.data <:+: (pyLower "what is chapter 3 about").data))
    ∧ _is_link_request "Where can I find the URL?" = true
    ∧ _is_link_request "what is chapter 3 about" = false :=
  ⟨⟨by decide, by decide, by decide⟩,
   C7_link_intent_heuristic.1 "Where can I find the URL?" "url" (by decide) (by decide),
   C7_link_intent_heuristic.2 "what is chapter 3 about" (by decide)⟩

/-! ## Claim C10 -/

/-- Claim C10: an input that is empty or consists only of whitespace makes
`_is_link_request` return false. -/
theorem C10_blank_is_not_link_request (s : String)
    (h : ∀ c ∈ s.data, pyWS c = true) : _is_link_request s = false := by
  have hstrip : s.data.dropWhile pyWS = [] := List.dropWhile_eq_nil_iff.mpr h
  have h1 : stripChars s.data = [] := by
    unfold stripChars
    rw [hstrip]
    rfl
  unfold _is_link_request pyLower pyStrip
  rw [h1]
  rfl

/-- Witness for C10 at the empty string and a whitespace-only string. -/
theorem C10_witness :
    ((∀ c ∈ ("" : String).data, pyWS c = true)
      ∧ (∀ c ∈ (" \t " : String).data, pyWS c = true))
    ∧ _is_link_request "" = false ∧ _is_link_request " \t " = false :=
  ⟨⟨by decide, by decide⟩,
   C10_blank_is_not_link_request "" (by decide),
   C10_blank_is_not_link_request " \t " (by decide)⟩

/-! ## Claim C2 -/

/-- Claim C2: selecting a collection different from the bound one installs
exactly the assistant id and thread id returned by this switch's creation
calls, empties the turn sequence regardless of its prior content, records
the new collection id, and is unaffected by the outcome of the best-effort
deletion of the old assistant. -/
theorem C2_collection_switch (env : QEnv) (s : AppState) (a b : String)
    (hsel : s.selected_vector_store = some a) (hne : a ≠ b) :
    (collectionSwitchStep env s b).assistant_id = create_assistant env
    ∧ (collectionSwitchStep env s b).thread_id = create_thread env
    ∧ (collectionSwitchStep env s b).messages = []
    ∧ (collectionSwitchStep env s b).selected_vector_store = some b
    ∧ (∀ aNew, env.assistantsCreate = .ok aNew →
        (collectionSwitchStep env s b).assistant_id = some aNew)
    ∧ (∀ tNew, env.threadsCreate = .ok tNew →
        (collectionSwitchStep env s b).thread_id = some tNew)
    ∧ (∀ d, collectionSwitchStep { env with assistantsDelete := d } s b =
        collectionSwitchStep env s b) := by
  have hguard : s.selected_vector_store ≠ some b := by
    rw [hsel]
    exact fun h => hne (by injection h)
  unfold collectionSwitchStep reset_chat_session
  rw [if_pos hguard]
  refine ⟨rfl, rfl, rfl, rfl, ?_, ?_, ?_⟩
  · intro aNew hA
    simp [create_assistant, hA]
  · intro tNew hT
    simp [create_thread, hT]
  · intro d
    rw [if_pos hguard]
    rfl

/-- Witness for C2: switching from collection `vsA` to `vsB` on a session
with recorded turns yields the fresh ids and an empty history. -/
theorem C2_witness :
    ((AppState.mk (some "admin") none (some "vsA") (some "asst_old") (some "thr_old")
        [Turn.mk "user" "hi", Turn.mk "assistant" "hello"]).selected_vector_store
      = some "vsA" ∧ "vsA" ≠ "vsB")
    ∧ (collectionSwitchStep baseEnv
        (AppState.mk (some "admin") none (some "vsA") (some "asst_old") (some "thr_old")
          [Turn.mk "user" "hi", Turn.mk "assistant" "hello"]) "vsB").messages = [] :=
  ⟨⟨rfl, by decide⟩,
   (C2_collection_switch baseEnv
     (AppState.mk (some "admin") none (some "vsA") (some "asst_old") (some "thr_old")
       [Turn.mk "user" "hi", Turn.mk "assistant" "hello"]) "vsA" "vsB" rfl
     (by decide)).2.2.1⟩

/-! ## Claim C9 -/

/-- Claim C9: a guest query refused before reaching the query engine
(missing or empty guest id, or the daily counter already at the limit)
leaves the whole session state, including the turn sequence, unchanged,
and forwards nothing. -/
theorem C9_refusal_leaves_state (env : QEnv) (fuel : Nat) (today : String)
    (q : GuestQuota) (s : AppState) (prompt : String)
    (hrole : s.user_role = some "guest")
    (hcase : s.guest_id = none ∨ s.guest_id = some "" ∨
      ∃ gid, s.guest_id = some gid ∧
        MAX_GUEST_QUERIES_PER_DAY ≤ q (gid, today)) :
    (handle_user_prompt env fuel today q s prompt).2.1 = s
    ∧ (handle_user_prompt env fuel today q s prompt).2.1.messages = s.messages
    ∧ (handle_user_prompt env fuel today q s prompt).1 = q
    ∧ (handle_user_prompt env fuel today q s prompt).2.2.forwarded = false := by
  unfold handle_user_prompt
  rw [if_pos hrole]
  rcases hcase with h0 | h0 | ⟨gid, hgid, hq⟩
  · rw [h0]
    exact ⟨rfl, rfl, rfl, rfl⟩
  · rw [h0]
    simp [PromptOutcome.forwarded]
  · rw [hgid]
    by_cases hg : gid = ""
    · simp [hg, PromptOutcome.forwarded]
    · simp only [if_neg hg]
      rw [if_pos hq]
      exact ⟨rfl, rfl, rfl, rfl⟩

/-- Witness for C9 at a concrete exhausted-quota state. -/
theorem C9_witness :
    ((AppState.mk (some "guest") (some "g1") none none none
        [Turn.mk "user" "old"]).user_role = some "guest"
      ∧ MAX_GUEST_QUERIES_PER_DAY ≤ (fun _ => 25 : GuestQuota) ("g1", "2026-10-12"))
    ∧ (handle_user_prompt baseEnv 0 "2026-10-12" (fun _ => 25)
        (AppState.mk (some "guest") (some "g1") none none none
          [Turn.mk "user" "old"]) "hi").2.1.messages = [Turn.mk "user" "old"] :=
  ⟨⟨rfl, by decide⟩,
   (C9_refusal_leaves_state baseEnv 0 "2026-10-12" (fun _ => 25)
     (AppState.mk (some "guest") (some "g1") none none none [Turn.mk "user" "old"])
     "hi" rfl (Or.inr (Or.inr ⟨"g1", rfl, by decide⟩))).2.1⟩

/-! ## Claim C6 -/

/-- Claim C6: every exception raised during message creation, run start,
polling or message listing is converted by `get_assistant_response` into
the user-facing `Error getting response:` string (never propagated: the
embedding of the guarded body is total and its error component is always
mapped to that string), and `fetch_vector_stores` returns the empty list
on any retrieval error. -/
theorem C6_exception_boundary (env : QEnv) (fuel : Nat) (user_message : String)
    (vsid : Option String) :
    (∀ e, get_assistant_responseE env fuel user_message vsid = .error e →
      get_assistant_response env fuel user_message vsid =
        some ("Error getting response: " ++ e))
    ∧ (∀ r, get_assistant_responseE env fuel user_message vsid = .ok r →
      get_assistant_response env fuel user_message vsid = r)
    ∧ (∀ e, env.createMessage = .error e →
      get_assistant_response env fuel user_message vsid =
        some ("Error getting response: " ++ e))
    ∧ (∀ e, runOutcome env fuel = .error e →
      get_assistant_response env fuel user_message vsid =
        some ("Error getting response: " ++ e))
    ∧ (∀ e st, runOutcome env fuel = .ok (some st) → st.toStr = "completed" →
      env.listMessages = .error e →
      get_assistant_response env fuel user_message vsid =
        some ("Error getting response: " ++ e))
    ∧ (∀ e, env.listVectorStores = .error e → fetch_vector_stores env = []) := by
  refine ⟨?_, ?_, ?_, ?_, ?_, ?_⟩
  · intro e he
    unfold get_assistant_response
    rw [he]
  · intro r hr
    unfold get_assistant_response
    rw [hr]
  · intro e he
    unfold get_assistant_response get_assistant_responseE runOutcome
    rw [he]
  · intro e he
    unfold get_assistant_response get_assistant_responseE
    rw [he]
  · intro e st hst hc he
    unfold get_assistant_response get_assistant_responseE
    rw [hst]
    dsimp only
    rw [if_pos hc, he]
  · intro e he
    unfold fetch_vector_stores
    rw [he]

/-- Witness for C6: a failing message-creation call and a failing
vector-store listing each degrade as specified. -/
theorem C6_witness :
    (({ baseEnv with createMessage := .error "boom" } : QEnv).createMessage
        = .error "boom"
      ∧ ({ baseEnv with listVectorStores := .error "down" } : QEnv).listVectorStores
        = .error "down")
    ∧ get_assistant_response { baseEnv with createMessage := .error "boom" } 0 "q" none
        = some "Error getting response: boom"
    ∧ fetch_vector_stores { baseEnv with listVectorStores := .error "down" } = [] :=
  ⟨⟨rfl, rfl⟩,
   (C6_exception_boundary { baseEnv with createMessage := .error "boom" } 0 "q"
     none).2.2.1 "boom" rfl,
   (C6_exception_boundary { baseEnv with listVectorStores := .error "down" } 0 "q"
     none).2.2.2.2.2 "down" rfl⟩

/-! ## Claim C1 -/

/-- Counterexample to C1 as stated: a job ending in `requires_action`
yields the deterministic string
`Error: The assistant requires additional action to continue.`, and that
string does not contain the state name `requires_action`. -/
theorem C1_counterexample :
    get_assistant_response { baseEnv with createRun := .ok .requires_action } 0 "q" none
      = some "Error: The assistant requires additional action to continue."
    ∧ ¬ ("requires_action".data <:+:
        "Error: The assistant requires additional action to continue.".data) :=
  ⟨rfl, by decide⟩

/-- Claim C1 (amended): every job ending in a non-`completed` terminal
state (`failed`, `cancelled`, `expired`, `requires_action`) yields its
distinct, deterministic error string; for `failed`, `cancelled` and
`expired` that string contains the state name, while the
`requires_action` string spells the state with a space instead of the
underscore. -/
theorem C1_terminal_error_strings (env : QEnv) (fuel : Nat) (user_message : String)
    (vsid : Option String) (st : RunStatus)
    (hst : st ∈ [RunStatus.failed, .cancelled, .expired, .requires_action])
    (hout : runOutcome env fuel = .ok (some st)) :
    get_assistant_response env fuel user_message vsid = some (nonCompletedMessage st)
    ∧ ([RunStatus.failed, .cancelled, .expired, .requires_action].map
        nonCompletedMessage).Pairwise (fun s₁ s₂ => s₁ ≠ s₂)
    ∧ (st ∈ [RunStatus.failed, .cancelled, .expired] →
        st.toStr.data <:+: (nonCompletedMessage st).data) := by
  refine ⟨?_, by decide, ?_⟩
  · unfold get_assistant_response get_assistant_responseE
    rw [hout]
    fin_cases hst <;> rfl
  · fin_cases hst <;> intro h3 <;>
      first
        | decide
        | exact absurd h3 (by decide)

/-- Witness for C1 at a concrete `failed` run. -/
theorem C1_witness :
    (RunStatus.failed ∈ [RunStatus.failed, .cancelled, .expired, .requires_action]
      ∧ runOutcome { baseEnv with createRun := .ok .failed } 0 = .ok (some .failed))
    ∧ get_assistant_response { baseEnv with createRun := .ok .failed } 0 "q" none
        = some (nonCompletedMessage .failed) :=
  ⟨⟨by decide, rfl⟩,
   (C1_terminal_error_strings { baseEnv with createRun := .ok .failed } 0 "q" none
     .failed (by decide) rfl).1⟩

/-! ## Claim C3 -/

theorem handle_step_guest (env : QEnv) (fuel : Nat) (today prompt gid : String)
    (q : GuestQuota) (s : AppState)
    (h1 : s.user_role = some "guest") (h2 : s.guest_id = some gid)
    (hgid : gid ≠ "") :
    (MAX_GUEST_QUERIES_PER_DAY ≤ q (gid, today) →
      handle_user_prompt env fuel today q s prompt = (q, s, .quotaRefused))
    ∧ (¬ MAX_GUEST_QUERIES_PER_DAY ≤ q (gid, today) →
      (handle_user_prompt env fuel today q s prompt).1 (gid, today)
          = q (gid, today) + 1
      ∧ (∀ k, k ≠ (gid, today) →
          (handle_user_prompt env fuel today q s prompt).1 k = q k)
      ∧ (handle_user_prompt env fuel today q s prompt).2.1.user_role = s.user_role
      ∧ (handle_user_prompt env fuel today q s prompt).2.1.guest_id = s.guest_id
      ∧ (handle_user_prompt env fuel today q s prompt).2.2.forwarded = true) := by
  unfold handle_user_prompt
  rw [if_pos h1, h2]
  dsimp only
  rw [if_neg hgid]
  constructor
  · intro hlim
    rw [if_pos hlim]
  · intro hlim
    rw [if_neg hlim]
    cases hr : get_assistant_response env fuel prompt s.selected_vector_store with
    | none =>
      refine ⟨by simp, ?_, rfl, rfl, rfl⟩
      intro k hk
      simp [hk]
    | some resp =>
      refine ⟨by simp, ?_, rfl, rfl, rfl⟩
      intro k hk
      simp [hk]

theorem iterPrompts_quota (env : QEnv) (fuel : Nat) (today prompt gid : String)
    (hgid : gid ≠ "") :
    ∀ (n : Nat) (q : GuestQuota) (s : AppState),
      s.user_role = some "guest" → s.guest_id = some gid →
      q (gid, today) ≤ 25 →
      (iterPrompts env fuel today prompt n (q, s)).1 (gid, today)
          = min (q (gid, today) + n) 25
      ∧ (iterPrompts env fuel today prompt n (q, s)).2.user_role = some "guest"
      ∧ (iterPrompts env fuel today prompt n (q, s)).2.guest_id = some gid := by
  intro n
  induction n with
  | zero =>
    intro q s h1 h2 h3
    exact ⟨by simpa [iterPrompts] using by omega, h1, h2⟩
  | succ n ih =>
    intro q s h1 h2 h3
    have hstep : iterPrompts env fuel today prompt (n + 1) (q, s)
        = iterPrompts env fuel today prompt n
            ((handle_user_prompt env fuel today q s prompt).1,
             (handle_user_prompt env fuel today q s prompt).2.1) := rfl
    rw [hstep]
    by_cases hlim : MAX_GUEST_QUERIES_PER_DAY ≤ q (gid, today)
    · have hrefuse := (handle_step_guest env fuel today prompt gid q s h1 h2 hgid).1 hlim
      rw [hrefuse]
      obtain ⟨ih1, ih2, ih3⟩ := ih q s h1 h2 h3
      refine ⟨?_, ih2, ih3⟩
      rw [ih1]
      have h25 : q (gid, today) = 25 := by
        have := hlim
        unfold MAX_GUEST_QUERIES_PER_DAY at this
        omega
      omega
    · obtain ⟨hs1, _, hs3, hs4, _⟩ :=
        (handle_step_guest env fuel today prompt gid q s h1 h2 hgid).2 hlim
      have hle : (handle_user_prompt env fuel today q s prompt).1 (gid, today) ≤ 25 := by
        rw [hs1]
        unfold MAX_GUEST_QUERIES_PER_DAY at hlim
        omega
      obtain ⟨ih1, ih2, ih3⟩ := ih (handle_user_prompt env fuel today q s prompt).1
        (handle_user_prompt env fuel today q s prompt).2.1
        (hs3.trans h1) (hs4.trans h2) hle
      refine ⟨?_, ih2, ih3⟩
      rw [ih1, hs1]
      unfold MAX_GUEST_QUERIES_PER_DAY at hlim
      omega

/-- Claim C3: starting from a zero counter for a guest identity and a
date, the N-th query is forwarded if and only if N ≤ 25; from the 26th
query on the outcome is the quota warning, the counter never exceeds 25,
and nothing reaches the query engine. -/
theorem C3_guest_daily_quota (env : QEnv) (fuel : Nat) (today prompt gid : String)
    (q₀ : GuestQuota) (s₀ : AppState)
    (hrole : s₀.user_role = some "guest") (hgid : s₀.guest_id = some gid)
    (hne : gid ≠ "") (hq0 : q₀ (gid, today) = 0) :
    (∀ N, 1 ≤ N →
      ((nthPromptResult env fuel today prompt q₀ s₀ N).2.2.forwarded = true ↔ N ≤ 25))
    ∧ (∀ N, 26 ≤ N →
      (nthPromptResult env fuel today prompt q₀ s₀ N).2.2 = .quotaRefused
      ∧ (nthPromptResult env fuel today prompt q₀ s₀ N).1 (gid, today) = 25)
    ∧ (∀ n, (iterPrompts env fuel today prompt n (q₀, s₀)).1 (gid, today) = min n 25) := by
  have hinv := iterPrompts_quota env fuel today prompt gid hne
  have hq25 : q₀ (gid, today) ≤ 25 := by omega
  have hbase : ∀ m, (iterPrompts env fuel today prompt m (q₀, s₀)).1 (gid, today)
      = min m 25
      ∧ (iterPrompts env fuel today prompt m (q₀, s₀)).2.user_role = some "guest"
      ∧ (iterPrompts env fuel today prompt m (q₀, s₀)).2.guest_id = some gid := by
    intro m
    have h := hinv m q₀ s₀ hrole hgid hq25
    rw [hq0] at h
    simpa using h
  refine ⟨?_, ?_, fun n => (hbase n).1⟩
  · intro N hN
    obtain ⟨hb1, hb2, hb3⟩ := hbase (N - 1)
    unfold nthPromptResult
    by_cases hle : N ≤ 25
    · have hlt : ¬ MAX_GUEST_QUERIES_PER_DAY ≤
          (iterPrompts env fuel today prompt (N - 1) (q₀, s₀)).1 (gid, today) := by
        rw [hb1]
        unfold MAX_GUEST_QUERIES_PER_DAY
        omega
      obtain ⟨_, _, _, _, hfwd⟩ := (handle_step_guest env fuel today prompt gid _ _
        hb2 hb3 hne).2 hlt
      simpa [hfwd] using hle
    · have hlim : MAX_GUEST_QUERIES_PER_DAY ≤
          (iterPrompts env fuel today prompt (N - 1) (q₀, s₀)).1 (gid, today) := by
        rw [hb1]
        unfold MAX_GUEST_QUERIES_PER_DAY
        omega
      have hrefuse := (handle_step_guest env fuel today prompt gid _ _
        hb2 hb3 hne).1 hlim
      rw [hrefuse]
      simpa [PromptOutcome.forwarded] using hle
  · intro N hN
    obtain ⟨hb1, hb2, hb3⟩ := hbase (N - 1)
    unfold nthPromptResult
    have hlim : MAX_GUEST_QUERIES_PER_DAY ≤
        (iterPrompts env fuel today prompt (N - 1) (q₀, s₀)).1 (gid, today) := by
      rw [hb1]
      unfold MAX_GUEST_QUERIES_PER_DAY
      omega
    have hrefuse := (handle_step_guest env fuel today prompt gid _ _
      hb2 hb3 hne).1 hlim
    rw [hrefuse]
    refine ⟨rfl, ?_⟩
    rw [hb1]
    omega

/-- Witness for C3: with a fresh counter, the 26th identical guest query
is refused by the quota gate. -/
theorem C3_witness :
    ((AppState.mk (some "guest") (some "g1") none none none []).user_role
        = some "guest"
      ∧ (fun _ => 0 : GuestQuota) ("g1", "2026-10-12") = 0)
    ∧ (nthPromptResult baseEnv 0 "2026-10-12" "hi" (fun _ => 0)
        (AppState.mk (some "guest") (some "g1") none none none []) 26).2.2
      = .quotaRefused :=
  ⟨⟨rfl, rfl⟩,
   ((C3_guest_daily_quota baseEnv 0 "2026-10-12" "hi" "g1" (fun _ => 0)
     (AppState.mk (some "guest") (some "g1") none none none [])
     rfl rfl (by decide) rfl).2.1 26 (by decide)).1⟩

/-! ## Order and de-duplication lemmas -/

theorem strLeB_iff (a b : String) : strLeB a b = true ↔ a ≤ b := by
  simp [strLeB, not_lt]

theorem strLeB_trans {a b c : String} (h1 : strLeB a b = true)
    (h2 : strLeB b c = true) : strLeB a c = true := by
  rw [strLeB_iff] at *
  exact le_trans h1 h2

theorem strLeB_total (a b : String) : (strLeB a b || strLeB b a) = true := by
  rw [Bool.or_eq_true]
  rcases le_total a b with h | h
  · exact Or.inl ((strLeB_iff a b).mpr h)
  · exact Or.inr ((strLeB_iff b a).mpr h)

theorem keyLe_iff (a b : String × String) :
    keyLe a b = true ↔ a.1 < b.1 ∨ (a.1 = b.1 ∧ a.2 ≤ b.2) := by
  simp [keyLe, strLeB_iff, decide_eq_true_iff]

theorem keyLe_trans {a b c : String × String} (h1 : keyLe a b = true)
    (h2 : keyLe b c = true) : keyLe a c = true := by
  rw [keyLe_iff] at *
  rcases h1 with h1 | ⟨e1, l1⟩ <;> rcases h2 with h2 | ⟨e2, l2⟩
  · exact Or.inl (lt_trans h1 h2)
  · exact Or.inl (e2 ▸ h1)
  · exact Or.inl (e1.symm ▸ h2)
  · exact Or.inr ⟨e1.trans e2, le_trans l1 l2⟩

theorem keyLe_total (a b : String × String) : (keyLe a b || keyLe b a) = true := by
  simp only [Bool.or_eq_true, keyLe_iff]
  rcases lt_trichotomy a.1 b.1 with h | h | h
  · exact Or.inl (Or.inl h)
  · rcases le_total a.2 b.2 with h2 | h2
    · exact Or.inl (Or.inr ⟨h, h2⟩)
    · exact Or.inr (Or.inr ⟨h.symm, h2⟩)
  · exact Or.inr (Or.inl h)

theorem srcLe_trans {a b c : String × Option String} (h1 : srcLe a b = true)
    (h2 : srcLe b c = true) : srcLe a c = true :=
  keyLe_trans h1 h2

theorem srcLe_total (a b : String × Option String) :
    (srcLe a b || srcLe b a) = true :=
  keyLe_total (srcKey a) (srcKey b)

theorem dedupBy_sublist {α : Type} (key : α → String × String) (l : List α) :
    ∀ seen, List.Sublist (dedupBy key l seen) l := by
  induction l with
  | nil => intro seen; simp [dedupBy]
  | cons x xs ih =>
    intro seen
    unfold dedupBy
    split
    · exact (ih seen).cons x
    · exact (ih _).cons₂ x

theorem dedupBy_key_not_seen {α : Type} (key : α → String × String) (l : List α) :
    ∀ seen x, x ∈ dedupBy key l seen → key x ∉ seen := by
  induction l with
  | nil => intro seen x hx; simp [dedupBy] at hx
  | cons y ys ih =>
    intro seen x hx
    unfold dedupBy at hx
    split at hx
    · exact ih seen x hx
    · rcases List.mem_cons.mp hx with rfl | hx'
      · rename_i hnot
        exact hnot
      · intro hmem
        exact ih _ x hx' (List.mem_cons_of_mem _ hmem)

theorem dedupBy_keys_nodup {α : Type} (key : α → String × String) (l : List α) :
    ∀ seen, ((dedupBy key l seen).map key).Nodup := by
  induction l with
  | nil => intro seen; simp [dedupBy]
  | cons y ys ih =>
    intro seen
    unfold dedupBy
    split
    · exact ih seen
    · simp only [List.map_cons, List.nodup_cons]
      refine ⟨?_, ih _⟩
      intro hmem
      obtain ⟨x, hx, hkx⟩ := List.mem_map.mp hmem
      exact dedupBy_key_not_seen key ys _ x hx
        (by rw [hkx]; exact List.mem_cons_self _ _)

theorem dedupBy_exists_of_mem {α : Type} (key : α → String × String) (l : List α) :
    ∀ seen x, x ∈ l → key x ∉ seen →
      ∃ y ∈ dedupBy key l seen, key y = key x := by
  induction l with
  | nil => intro seen x hx; simp at hx
  | cons z zs ih =>
    intro seen x hx hns
    unfold dedupBy
    rcases List.mem_cons.mp hx with rfl | hx'
    · split
      · rename_i hz
        exact absurd hz hns
      · exact ⟨x, List.mem_cons_self _ _, rfl⟩
    · split
      · exact ih seen x hx' hns
      · by_cases hkey : key x = key z
        · exact ⟨z, List.mem_cons_self _ _, hkey.symm⟩
        · obtain ⟨y, hy, hky⟩ := ih (key z :: seen) x hx' (by
            intro hmem
            rcases List.mem_cons.mp hmem with h | h
            · exact hkey h
            · exact hns h)
          exact ⟨y, List.mem_cons_of_mem _ hy, hky⟩

theorem pyOrS_ne_empty {a b : Option String} (ha : a ≠ some "")
    (hb : b ≠ some "") : pyOrS a b ≠ some "" := by
  unfold pyOrS
  split <;> assumption

theorem srcKey_inj {p q : String × Option String}
    (hp : p.2 ≠ some "") (hq : q.2 ≠ some "") (h : srcKey p = srcKey q) : p = q := by
  obtain ⟨p1, p2⟩ := p
  obtain ⟨q1, q2⟩ := q
  simp only [srcKey, Prod.mk.injEq] at h
  obtain ⟨h1, h2⟩ := h
  subst h1
  cases p2 <;> cases q2 <;> simp_all [Option.getD]

theorem retrievedTitleUrl_snd_ne (env : QEnv) (vsid : Option String)
    (fid : String) (hwf : EnvNoEmpty env) :
    (retrievedTitleUrl env vsid fid).2 ≠ some "" := by
  unfold retrievedTitleUrl
  split
  · split
    · rename_i a heq
      exact pyOrS_ne_empty (hwf.2 _ _ a heq).2.1 (hwf.2 _ _ a heq).2.2
    · simp
  · simp

theorem resolveSource_props (env : QEnv) (vsid : Option String) (fid : String)
    (hwf : EnvNoEmpty env) {n : String} {u : Option String}
    (h : resolveSource env vsid fid = some (n, u)) : n ≠ "" ∧ u ≠ some "" := by
  unfold resolveSource at h
  simp only [] at h
  split at h
  · rename_i n' hm
    split at h
    · exact absurd h (by simp)
    · rename_i hne'
      simp only [Option.some.injEq, Prod.mk.injEq] at h
      obtain ⟨rfl, rfl⟩ := h
      exact ⟨hne', retrievedTitleUrl_snd_ne env vsid fid hwf⟩
  · exact absurd h (by simp)

theorem sourcesFor_mem_props (env : QEnv) (vsid : Option String)
    (fids : List String) (hwf : EnvNoEmpty env) :
    ∀ e ∈ sourcesFor env vsid fids, e.1 ≠ "" ∧ e.2 ≠ some "" := by
  intro e he
  obtain ⟨fid, _, hr⟩ := List.mem_filterMap.mp he
  obtain ⟨e1, e2⟩ := e
  exact resolveSource_props env vsid fid hwf hr

theorem uniqueSources_spec (env : QEnv) (vsid : Option String)
    (fids : List String) (hwf : EnvNoEmpty env) :
    ((uniqueSources env vsid fids).Pairwise (fun p q => srcLe p q = true))
    ∧ ((uniqueSources env vsid fids).map srcKey).Nodup
    ∧ (∀ e, e ∈ uniqueSources env vsid fids ↔ e ∈ sourcesFor env vsid fids) := by
  refine ⟨?_, dedupBy_keys_nodup srcKey _ [], ?_⟩
  · have hs : ((sourcesFor env vsid fids).mergeSort srcLe).Pairwise
        (fun p q => srcLe p q = true) := by
      apply List.sorted_mergeSort
      · exact fun a b c h1 h2 => srcLe_trans h1 h2
      · exact srcLe_total
    exact List.Pairwise.sublist (dedupBy_sublist srcKey _ []) hs
  · intro e
    constructor
    · intro he
      have h1 := (dedupBy_sublist srcKey
        ((sourcesFor env vsid fids).mergeSort srcLe) []).subset he
      exact List.mem_mergeSort.mp h1
    · intro he
      have h1 : e ∈ (sourcesFor env vsid fids).mergeSort srcLe :=
        List.mem_mergeSort.mpr he
      obtain ⟨y, hy, hky⟩ := dedupBy_exists_of_mem srcKey _ [] e h1 (by simp)
      have hysrc : y ∈ sourcesFor env vsid fids :=
        List.mem_mergeSort.mp ((dedupBy_sublist srcKey _ []).subset hy)
      have hpy := sourcesFor_mem_props env vsid fids hwf y hysrc
      have hpe := sourcesFor_mem_props env vsid fids hwf e he
      have heq : y = e := srcKey_inj hpy.2 hpe.2 hky
      rwa [heq] at hy

theorem filterMap_filter_isSome {α β : Type} (f : α → Option β) (l : List α) :
    (l.filter (fun x => (f x).isSome)).filterMap f = l.filterMap f := by
  induction l with
  | nil => rfl
  | cons x xs ih =>
    by_cases hx : (f x).isSome
    · cases hfx : f x with
      | none => rw [hfx] at hx; simp at hx
      | some b => simp [List.filter_cons, List.filterMap_cons, hx, hfx, ih]
    · cases hfx : f x with
      | none => simp [List.filter_cons, List.filterMap_cons, hx, hfx, ih]
      | some b => rw [hfx] at hx; simp at hx

/-! ## Claim C4 -/

/-- Claim C4: on a completed job whose reply cites at least one
resolvable file id, the appended Sources block lists, exactly once, each
resolved `(doc-title-or-filename, view_source_url-else-source_url)` pair;
the entry list is deduplicated (no key appears twice), sorted by
`(name, url)`, rendered as a `View source` link exactly when a URL is
present, and dropping the unresolvable cited ids leaves the block (and
hence the rest of the answer) unchanged. -/
theorem C4_sources_block (env : QEnv) (vsid : Option String)
    (user_message : String) (msgs : List Msg) (latest : Msg)
    (hfind : msgs.find? (fun m => m.role == "assistant") = some latest)
    (htext : ¬ msgText latest = "")
    (hwf : EnvNoEmpty env)
    (hres : ¬ sourcesFor env vsid (msgCitedIds latest) = []) :
    (∃ tail,
      composeCompleted env vsid user_message msgs =
        msgText latest
          ++ mkSourcesBlock (uniqueSources env vsid (msgCitedIds latest)) ++ tail
      ∧ (tail = "" ∨ tail = _build_knowledge_base_links_block env (vsid.getD "")))
    ∧ (∀ fid ∈ msgCitedIds latest, ∀ n u,
        resolveSource env vsid fid = some (n, u) →
        (n, u) ∈ uniqueSources env vsid (msgCitedIds latest))
    ∧ (uniqueSources env vsid (msgCitedIds latest)).Nodup
    ∧ (∀ e ∈ uniqueSources env vsid (msgCitedIds latest),
        ∃ fid ∈ msgCitedIds latest, resolveSource env vsid fid = some e)
    ∧ ((uniqueSources env vsid (msgCitedIds latest)).map srcKey).Nodup
    ∧ (uniqueSources env vsid (msgCitedIds latest)).Pairwise
        (fun p q => srcLe p q = true)
    ∧ mkSourcesBlock (uniqueSources env vsid (msgCitedIds latest))
        = "\n\n**Sources:**\n" ++ String.intercalate "\n"
            ((uniqueSources env vsid (msgCitedIds latest)).map renderSourceLine)
    ∧ uniqueSources env vsid ((msgCitedIds latest).filter
        (fun fid => (resolveSource env vsid fid).isSome))
        = uniqueSources env vsid (msgCitedIds latest) := by
  obtain ⟨hsorted, hnodupk, hmem⟩ :=
    uniqueSources_spec env vsid (msgCitedIds latest) hwf
  have hnodup : (uniqueSources env vsid (msgCitedIds latest)).Nodup :=
    List.Nodup.of_map srcKey hnodupk
  refine ⟨?_, ?_, hnodup, ?_, hnodupk, hsorted, rfl, ?_⟩
  · unfold composeCompleted
    rw [hfind]
    dsimp only
    rw [if_neg htext, if_neg hres]
    by_cases hlink : (truthyS vsid && _is_link_request user_message) = true
    · rw [if_pos hlink]
      by_cases hkb : _build_knowledge_base_links_block env (vsid.getD "") = ""
      · refine ⟨"", ?_, Or.inl rfl⟩
        rw [String.append_empty, if_pos hkb]
      · refine ⟨_build_knowledge_base_links_block env (vsid.getD ""), ?_, Or.inr rfl⟩
        rw [if_neg hkb]
    · rw [if_neg hlink]
      refine ⟨"", ?_, Or.inl rfl⟩
      rw [String.append_empty]
  · intro fid hfid n u hr
    have hin : (n, u) ∈ sourcesFor env vsid (msgCitedIds latest) :=
      List.mem_filterMap.mpr ⟨fid, hfid, hr⟩
    exact (hmem (n, u)).mpr hin
  · intro e he
    exact List.mem_filterMap.mp ((hmem e).mp he)
  · unfold uniqueSources sourcesFor
    rw [filterMap_filter_isSome]

/-- Witness for C4: a completed reply citing file `f1`, whose attachment
carries `doc = Statute` and `view_source_url`, produces a Sources entry
for `(Statute, https://x/statute.pdf)`. -/
theorem C4_witness :
    (([msgC4] : List Msg).find? (fun m => m.role == "assistant") = some msgC4
      ∧ ¬ msgText msgC4 = ""
      ∧ ¬ sourcesFor envC4 (some "vs1") (msgCitedIds msgC4) = [])
    ∧ ("Statute", some "https://x/statute.pdf")
        ∈ uniqueSources envC4 (some "vs1") (msgCitedIds msgC4) :=
  ⟨⟨rfl, by decide, by decide⟩,
   (C4_sources_block envC4 (some "vs1") "q" [msgC4] msgC4 rfl (by decide)
     ⟨fun fid => by simp [envC4, baseEnv],
      fun v fid a h => by
        simp only [envC4] at h
        simp only [Option.some.injEq] at h
        constructor
        · rw [← h]; decide
        constructor
        · rw [← h]; decide
        · rw [← h]; decide⟩
     (by decide)).2.1 "f1" (by decide) "Statute" (some "https://x/statute.pdf")
     (by decide)⟩

/-! ## Claim C5 -/

theorem uniqueLinks_spec (env : QEnv) (vsid : String) :
    ((uniqueLinks env vsid).Pairwise (fun p q => keyLe p q = true))
    ∧ ((uniqueLinks env vsid).Nodup)
    ∧ (∀ e, e ∈ uniqueLinks env vsid ↔ e ∈ linksFor env vsid) := by
  refine ⟨?_, ?_, ?_⟩
  · have hs : ((linksFor env vsid).mergeSort keyLe).Pairwise
        (fun p q => keyLe p q = true) := by
      apply List.sorted_mergeSort
      · exact fun a b c h1 h2 => keyLe_trans h1 h2
      · exact keyLe_total
    exact List.Pairwise.sublist (dedupBy_sublist (fun p => p) _ []) hs
  · have h := dedupBy_keys_nodup (fun p => p)
      ((linksFor env vsid).mergeSort keyLe) []
    simpa [uniqueLinks] using h
  · intro e
    constructor
    · intro he
      exact List.mem_mergeSort.mp ((dedupBy_sublist (fun p => p) _ []).subset he)
    · intro he
      obtain ⟨y, hy, hky⟩ := dedupBy_exists_of_mem (fun p => p) _ [] e
        (List.mem_mergeSort.mpr he) (by simp)
      exact hky ▸ hy

theorem kb_block_empty_iff (env : QEnv) (v : String) :
    _build_knowledge_base_links_block env v = "" ↔ linksFor env v = [] := by
  unfold _build_knowledge_base_links_block
  by_cases h : linksFor env v = []
  · simp [h]
  · rw [if_neg h]
    constructor
    · intro hcontra
      exfalso
      have hd := congrArg String.data hcontra
      rw [String.data_append] at hd
      rcases List.append_eq_nil.mp hd with ⟨h1, _⟩
      exact absurd h1 (by decide)
    · intro hl
      exact absurd hl h

/-- Claim C5: on a completed job the reply decomposes into the base text
(answer plus Sources block) followed by the Document-links block exactly
when the link-intent heuristic fires on the user message AND a collection
id is bound AND at least one attached document resolves to a
`(name, url)` pair; the block covers every attached document that
resolves — not only the cited ones — deduplicated and sorted by
`(name, url)`. -/
theorem C5_document_links (env : QEnv) (vsid : Option String)
    (user_message : String) (msgs : List Msg) (latest : Msg)
    (hfind : msgs.find? (fun m => m.role == "assistant") = some latest)
    (htext : ¬ msgText latest = "") :
    ((truthyS vsid && _is_link_request user_message) = true ∧
        ¬ linksFor env (vsid.getD "") = [] →
      composeCompleted env vsid user_message msgs =
        (if sourcesFor env vsid (msgCitedIds latest) = [] then msgText latest
         else msgText latest
           ++ mkSourcesBlock (uniqueSources env vsid (msgCitedIds latest)))
        ++ _build_knowledge_base_links_block env (vsid.getD "")
      ∧ ¬ _build_knowledge_base_links_block env (vsid.getD "") = "")
    ∧ ((truthyS vsid && _is_link_request user_message) = false ∨
        linksFor env (vsid.getD "") = [] →
      composeCompleted env vsid user_message msgs =
        (if sourcesFor env vsid (msgCitedIds latest) = [] then msgText latest
         else msgText latest
           ++ mkSourcesBlock (uniqueSources env vsid (msgCitedIds latest))))
    ∧ (¬ linksFor env (vsid.getD "") = [] ↔
        ∃ vf ∈ fetch_vector_store_files env (vsid.getD ""), ∃ p,
          resolveLink env (vsid.getD "") vf = some p)
    ∧ (∀ p, p ∈ uniqueLinks env (vsid.getD "") ↔
        ∃ vf ∈ fetch_vector_store_files env (vsid.getD ""),
          resolveLink env (vsid.getD "") vf = some p)
    ∧ (uniqueLinks env (vsid.getD "")).Nodup
    ∧ (uniqueLinks env (vsid.getD "")).Pairwise (fun p q => keyLe p q = true)
    ∧ (¬ linksFor env (vsid.getD "") = [] →
        _build_knowledge_base_links_block env (vsid.getD "")
          = "\n\n**Document links:**\n" ++ String.intercalate "\n"
              ((uniqueLinks env (vsid.getD "")).map
                (fun p => "- [View source: " ++ p.1 ++ "](" ++ p.2 ++ ")"))) := by
  obtain ⟨hsorted, hnodup, hmem⟩ := uniqueLinks_spec env (vsid.getD "")
  have hbase : composeCompleted env vsid user_message msgs =
      (if sourcesFor env vsid (msgCitedIds latest) = [] then msgText latest
       else msgText latest
         ++ mkSourcesBlock (uniqueSources env vsid (msgCitedIds latest)))
      ++ (if (truthyS vsid && _is_link_request user_message) = true then
            _build_knowledge_base_links_block env (vsid.getD "") else "") := by
    unfold composeCompleted
    rw [hfind]
    dsimp only
    rw [if_neg htext]
    by_cases hlink : (truthyS vsid && _is_link_request user_message) = true
    · rw [if_pos hlink, if_pos hlink]
      by_cases hkb : _build_knowledge_base_links_block env (vsid.getD "") = ""
      · rw [if_pos hkb, hkb, String.append_empty]
      · rw [if_neg hkb]
    · rw [if_neg hlink, if_neg hlink, String.append_empty]
  refine ⟨?_, ?_, ?_, fun p => (hmem p).trans List.mem_filterMap, hnodup, hsorted, ?_⟩
  · intro ⟨hlink, hne⟩
    rw [hbase, if_pos hlink]
    exact ⟨rfl, (not_iff_not.mpr (kb_block_empty_iff env (vsid.getD ""))).mpr hne⟩
  · intro hcase
    rcases hcase with hlink | hle
    · have hcond : ¬ ((truthyS vsid && _is_link_request user_message) = true) := by
        rw [hlink]
        exact Bool.false_ne_true
      rw [hbase, if_neg hcond, String.append_empty]
    · rw [hbase]
      by_cases hlink : (truthyS vsid && _is_link_request user_message) = true
      · rw [if_pos hlink, (kb_block_empty_iff env (vsid.getD "")).mpr hle,
          String.append_empty]
      · rw [if_neg hlink, String.append_empty]
  · unfold linksFor
    constructor
    · intro hne
      rcases List.exists_mem_of_ne_nil _ hne with ⟨p, hp⟩
      obtain ⟨vf, hvf, hr⟩ := List.mem_filterMap.mp hp
      exact ⟨vf, hvf, p, hr⟩
    · intro ⟨vf, hvf, p, hr⟩ hnil
      have : p ∈ (fetch_vector_store_files env (vsid.getD "")).filterMap
          (resolveLink env (vsid.getD "")) := List.mem_filterMap.mpr ⟨vf, hvf, hr⟩
      rw [hnil] at this
      simp at this
  · intro hne
    unfold _build_knowledge_base_links_block
    rw [if_neg hne]

/-- Witness for C5: with two attached files resolving to the same
`(Guide, https://x/guide.pdf)` pair, the Document-links entries contain
that pair (once). -/
theorem C5_witness :
    (([msgC5] : List Msg).find? (fun m => m.role == "assistant") = some msgC5
      ∧ ¬ msgText msgC5 = "")
    ∧ ("Guide", "https://x/guide.pdf")
        ∈ uniqueLinks envC5 ((some "vs1" : Option String).getD "") :=
  ⟨⟨rfl, by decide⟩,
   ((C5_document_links envC5 (some "vs1") "can I get the link to this document"
     [msgC5] msgC5 rfl (by decide)).2.2.2.1
     ("Guide", "https://x/guide.pdf")).mpr ⟨some "f1", by decide, by decide⟩⟩

/-! ## Claim C8 -/

theorem collectNamesExts_snd (env : QEnv) :
    ∀ l : List (Option String),
      (collectNamesExts env l).2 = l.filterMap (resolvedTypeOf env) := by
  intro l
  induction l with
  | nil => rfl
  | cons x xs ih =>
    unfold collectNamesExts
    cases x with
    | none => simpa [resolvedTypeOf, List.filterMap_cons] using ih
    | some fid =>
      by_cases h1 : fid = ""
      · simpa [resolvedTypeOf, h1, List.filterMap_cons] using ih
      · cases hr : env.retrieveFile fid with
        | none => simpa [resolvedTypeOf, h1, hr, List.filterMap_cons] using ih
        | some fn? =>
          cases fn? with
          | none => simpa [resolvedTypeOf, h1, hr, List.filterMap_cons] using ih
          | some fn =>
            by_cases h2 : fn = ""
            · simpa [resolvedTypeOf, h1, hr, h2, List.filterMap_cons] using ih
            · by_cases h3 : pyExtOf fn = ""
              · simpa [resolvedTypeOf, h1, hr, h2, h3, List.filterMap_cons] using ih
              · simp [resolvedTypeOf, h1, hr, h2, h3, List.filterMap_cons, ih]

/-- Claim C8: the file-types summary is `none` exactly when no attached
file contributes a resolvable extension; otherwise it is the
comma-separated, sorted, de-duplicated, upper-cased extension list; the
extension stream is the per-file resolution of the attached files, and a
file whose retrieval raises is skipped without affecting the rest of the
listing. -/
theorem C8_file_types_summary (env : QEnv) (vsid : String) :
    ((fetch_vector_store_filenames_and_types env vsid).2 = none ↔
      (collectNamesExts env (fetch_vector_store_files env vsid)).2 = [])
    ∧ (collectNamesExts env (fetch_vector_store_files env vsid)).2
        = (fetch_vector_store_files env vsid).filterMap (resolvedTypeOf env)
    ∧ (∀ s, (fetch_vector_store_filenames_and_types env vsid).2 = some s →
        s = String.intercalate ", "
            ((((collectNamesExts env (fetch_vector_store_files env vsid)).2.map
              pyUpper).dedup).mergeSort strLeB)
        ∧ ((((collectNamesExts env (fetch_vector_store_files env vsid)).2.map
              pyUpper).dedup).mergeSort strLeB).Pairwise
            (fun a b => strLeB a b = true)
        ∧ ((((collectNamesExts env (fetch_vector_store_files env vsid)).2.map
              pyUpper).dedup).mergeSort strLeB).Nodup
        ∧ (∀ x, x ∈ (((collectNamesExts env
              (fetch_vector_store_files env vsid)).2.map pyUpper).dedup).mergeSort
                strLeB ↔
            ∃ e ∈ (collectNamesExts env (fetch_vector_store_files env vsid)).2,
              pyUpper e = x))
    ∧ (∀ l₁ l₂ fid, env.retrieveFile fid = none →
        collectNamesExts env (l₁ ++ some fid :: l₂)
          = collectNamesExts env (l₁ ++ l₂)) := by
  refine ⟨?_, collectNamesExts_snd env _, ?_, ?_⟩
  · unfold fetch_vector_store_filenames_and_types
    by_cases h : (collectNamesExts env (fetch_vector_store_files env vsid)).2 = []
    · simp [h]
    · simp [h]
  · intro s hs
    unfold fetch_vector_store_filenames_and_types at hs
    by_cases h : (collectNamesExts env (fetch_vector_store_files env vsid)).2 = []
    · simp [h] at hs
    · simp only [h, if_neg, ite_false] at hs
      refine ⟨?_, ?_, ?_, ?_⟩
      · simpa using hs.symm
      · apply List.sorted_mergeSort
        · exact fun a b c hab hbc => strLeB_trans hab hbc
        · exact strLeB_total
      · have hperm := List.mergeSort_perm
          (((collectNamesExts env (fetch_vector_store_files env vsid)).2.map
            pyUpper).dedup) strLeB
        exact hperm.nodup_iff.mpr (List.nodup_dedup _)
      · intro x
        rw [List.mem_mergeSort, List.mem_dedup, List.mem_map]
  · intro l₁ l₂ fid hfail
    induction l₁ with
    | nil =>
      simp only [List.nil_append]
      conv_lhs => rw [collectNamesExts.eq_def]
      by_cases h1 : fid = ""
      · simp [h1]
      · simp [h1, hfail]
    | cons x xs ih =>
      simp only [List.cons_append]
      conv_lhs => rw [collectNamesExts.eq_def]
      conv_rhs => rw [collectNamesExts.eq_def]
      cases x with
      | none => exact ih
      | some fid' =>
        by_cases h1 : fid' = ""
        · simp only [if_pos h1]
          exact ih
        · simp only [if_neg h1]
          cases hr : env.retrieveFile fid' with
          | none => exact ih
          | some fn? =>
            cases fn? with
            | none => exact ih
            | some fn =>
              by_cases h2 : fn = ""
              · simp only [if_pos h2]
                exact ih
              · simp only [if_neg h2, ih]

/-- Witness for C8: a file whose retrieval raises is dropped from the
collection pass without affecting the neighbouring files. -/
theorem C8_witness :
    envC8.retrieveFile "bad" = none
    ∧ collectNamesExts envC8 ([some "a"] ++ some "bad" :: [some "b"])
        = collectNamesExts envC8 ([some "a"] ++ [some "b"]) :=
  ⟨rfl, (C8_file_types_summary envC8 "vs").2.2.2 [some "a"] [some "b"] "bad" rfl⟩

end RagApp
